import Mathlib

/-!
Shallow embedding of the satellite traffic dashboard backend
(`backend/conj.py` and `backend/main.py`) and proofs about the
frozen behavioural claims.

Numbers that the Python code manipulates as floats are modelled as
real numbers; dictionaries are modelled as functions from a fixed
field enumeration to `Option Val`, where `none` means the key is
absent and `Val.vnull` models a present key whose value is `None`.
Python in-place mutation of the shared `tracked` dict is modelled by
explicit state passing over an insertion-ordered association list,
with "references" to entries represented by their (stable) ids.
-/

namespace SatDash

/-! ### Geometry and proximity scan, from `backend/conj.py` -/

/-- A record as consumed by `conj.find_close_pairs`: per its docstring, a
dict with keys satid, satname, satlat, satlng, satalt, category.  A `none`
latitude or longitude models an absent (`None`) coordinate; a `none`
altitude models a missing `satalt` key (read with default `0.0`). -/
structure Sat where
  satid : Int
  satname : Option String := none
  satlat : Option ℝ := none
  satlng : Option ℝ := none
  satalt : Option ℝ := none
  category : Option String := none

/-- The conversion `math.radians`. -/
noncomputable def radians (d : ℝ) : ℝ := d * (Real.pi / 180)

/-- The inner helper `to_ecef` of `euclidean_km_from_latlonalt`: place a
point at radius `R + alt` (R = 6371 km) in the direction of its
latitude/longitude. -/
noncomputable def to_ecef (lat lon alt_km : ℝ) : ℝ × ℝ × ℝ :=
  ((6371 + alt_km) * Real.cos (radians lat) * Real.cos (radians lon),
   (6371 + alt_km) * Real.cos (radians lat) * Real.sin (radians lon),
   (6371 + alt_km) * Real.sin (radians lat))

/-- `conj.euclidean_km_from_latlonalt`: approximate ECEF Euclidean
distance in km between two lat/lon/alt triples. -/
noncomputable def euclidean_km_from_latlonalt
    (lat1 lon1 alt1_km lat2 lon2 alt2_km : ℝ) : ℝ :=
  Real.sqrt
    (((to_ecef lat1 lon1 alt1_km).1 - (to_ecef lat2 lon2 alt2_km).1) ^ 2
      + ((to_ecef lat1 lon1 alt1_km).2.1 - (to_ecef lat2 lon2 alt2_km).2.1) ^ 2
      + ((to_ecef lat1 lon1 alt1_km).2.2 - (to_ecef lat2 lon2 alt2_km).2.2) ^ 2)

/-- The distance `find_close_pairs` computes for a candidate pair: both
coordinates read from the records (the loop guards guarantee they are
present, so `getD 0` is only a formal default) and altitude read with
default 0 as in `float(a.get('satalt', 0.0))`. -/
noncomputable def satDist (a b : Sat) : ℝ :=
  euclidean_km_from_latlonalt (a.satlat.getD 0) (a.satlng.getD 0) (a.satalt.getD 0)
    (b.satlat.getD 0) (b.satlng.getD 0) (b.satalt.getD 0)

/-- `conj.find_close_pairs`: nested index loops with `i < j`, skipping any
record whose latitude or longitude is absent, and emitting `(a, b, d)`
whenever the computed distance `d` is at most the threshold.  The Python
loop over indices `i` with inner loop over `j > i` is rendered as
recursion on the list: the head is paired against every later element,
then the procedure recurses on the tail. -/
noncomputable def find_close_pairs : List Sat → ℝ → List (Sat × Sat × ℝ)
  | [], _ => []
  | a :: rest, t =>
    (if a.satlat.isSome ∧ a.satlng.isSome then
       rest.filterMap fun b =>
         if b.satlat.isSome ∧ b.satlng.isSome then
           if satDist a b ≤ t then some (a, b, satDist a b) else none
         else none
     else []) ++ find_close_pairs rest t

/-- Modelled from the spec words for `scan` (claim C1): the characterisation
of the pairs that should be returned — an index pair `i < j` in input
order, both coordinates present on both records, and computed distance at
most the threshold, emitted together with that distance. -/
def specClosePair (l : List Sat) (t : ℝ) (p : Sat × Sat × ℝ) : Prop :=
  ∃ i j, ∃ (hi : i < l.length) (hj : j < l.length), i < j ∧
    (l.get ⟨i, hi⟩).satlat.isSome ∧ (l.get ⟨i, hi⟩).satlng.isSome ∧
    (l.get ⟨j, hj⟩).satlat.isSome ∧ (l.get ⟨j, hj⟩).satlng.isSome ∧
    satDist (l.get ⟨i, hi⟩) (l.get ⟨j, hj⟩) ≤ t ∧
    p = (l.get ⟨i, hi⟩, l.get ⟨j, hj⟩, satDist (l.get ⟨i, hi⟩) (l.get ⟨j, hj⟩))

/-! ### The shared catalog (`tracked` in `backend/main.py`)

Entries of `tracked` are Python dicts.  We model a dict as a function
from the field enumeration to `Option Val`; `tracked` itself is an
insertion-ordered association list from satellite id to entry. -/

/-- Dictionary keys appearing in catalog entries, sweep records and
position records. -/
inductive Field
  | satid | satname | satlat | satlng | satalt | category | last_update
  | satlatitude | satlongitude | sataltitude
  deriving DecidableEq

/-- Values stored in the dicts: integers, strings, floats (modelled as
reals) and Python `None` (`vnull`). -/
inductive Val
  | vint (n : Int)
  | vstr (s : String)
  | vnum (r : ℝ)
  | vnull

/-- A Python dict over the known keys: `none` means the key is absent. -/
abbrev Obj := Field → Option Val

/-- The fresh `{}` created by `tracked.setdefault(satid, {})`. -/
def emptyObj : Obj := fun _ => none

/-- Python `dict.update`: every key present in `u` overwrites, every key
absent in `u` is left as it was. -/
def dictUpdate (e u : Obj) : Obj := fun f =>
  match u f with
  | some v => some v
  | none => e f

/-- The `tracked` mapping: insertion-ordered id → entry list. -/
abbrev Catalog := List (Int × Obj)

/-- `tracked[id]` as an optional lookup (first binding wins, as for a dict
without duplicate keys). -/
def lookupC (c : Catalog) (id : Int) : Option Obj :=
  (c.find? fun p => p.1 == id).map Prod.snd

/-- The membership test `satid in tracked`. -/
def hasKey (c : Catalog) (id : Int) : Bool :=
  c.any fun p => p.1 == id

/-- `tracked.setdefault(satid, {})`: append a fresh empty entry when the
id is unseen, otherwise leave the catalog unchanged. -/
def setdefaultC (c : Catalog) (id : Int) : Catalog :=
  if hasKey c id then c else c ++ [(id, emptyObj)]

/-- In-place `tracked[id].update(u)`: rewrite the entry bound to `id`. -/
def updAt (c : Catalog) (id : Int) (u : Obj) : Catalog :=
  c.map fun p => if p.1 == id then (p.1, dictUpdate p.2 u) else p

/-- The merge pattern used at every update site of `main.py`:
`tracked.setdefault(satid, {}); tracked[satid].update(u)`. -/
def mergeC (c : Catalog) (id : Int) (u : Obj) : Catalog :=
  updAt (setdefaultC c id) id u

/-- The values view `list(tracked.values())`, as the list of entry
references: each id names the one dict object ever bound to it. -/
def snapshotRefs (c : Catalog) : List Int := c.map Prod.fst

/-- Dereference a list of entry references against the current catalog
state: this is what a holder of `list(tracked.values())` sees after
later in-place mutations. -/
def readRefs (c : Catalog) (refs : List Int) : List (Option Obj) :=
  refs.map (lookupC c)

/-! ### Conversions applied to raw fetched records -/

/-- Python `int(x)` truncation toward zero for a float argument. -/
noncomputable def pyTrunc (r : ℝ) : Int := if 0 ≤ r then ⌊r⌋ else ⌈r⌉

/-- `int(item["satid"])`: `none` models the exception raised when the key
is missing (`KeyError`), the value is `None`, or the string does not
parse as an integer. -/
noncomputable def getSatid (item : Obj) : Option Int :=
  match item Field.satid with
  | some (.vint n) => some n
  | some (.vnum r) => some (pyTrunc r)
  | some (.vstr s) => s.toInt?
  | some .vnull => none
  | none => none

/-- `float(item.get(k)) if item.get(k) is not None else None`: the outer
`none` models the exception raised by `float` on a non-numeric value;
`some none` is a resulting `None` value (key absent or value `None`). -/
def getNumField (o : Option Val) : Option (Option ℝ) :=
  match o with
  | none => some none
  | some .vnull => some none
  | some (.vnum r) => some (some r)
  | some (.vint n) => some (some (n : ℝ))
  | some (.vstr _) => none

/-- `float(item.get(k, 0.0))`: default 0 when the key is absent; `none`
models the exception on `None` or a non-numeric value. -/
def toNumD0 (o : Option Val) : Option ℝ :=
  match o with
  | none => some 0
  | some (.vnum r) => some r
  | some (.vint n) => some ((n : ℝ))
  | some .vnull => none
  | some (.vstr _) => none

/-- Pack an optional real back into a stored value (`None` stays null). -/
def numValOf (o : Option ℝ) : Val :=
  match o with
  | some r => .vnum r
  | none => .vnull

/-! ### The regional sweep (`tracker_loop` in `backend/main.py`) -/

/-- The update dict built for one `above` record (lines 390–398 and
415–423 of `main.py`), with the category chosen structurally by the
processing loop; `none` models an exception raised by one of the
`float(...)` conversions while the dict literal is evaluated — all of
which happen after the `setdefault` and before the `update`, and all of
which leave the same catalog state, so their relative order is
immaterial.  Sweep GEO records convert their altitude here too (an
`Option` argument); LEO records pass their already-converted altitude. -/
def mkAboveUpd (item : Obj) (id : Int) (cat : String) (alt : Option ℝ)
    (now : ℝ) : Option Obj :=
  match getNumField (item Field.satlat), getNumField (item Field.satlng),
      alt with
  | some la, some lo, some altv =>
    some fun f =>
      match f with
      | .satid => some (.vint id)
      | .satname => some ((item Field.satname).getD .vnull)
      | .satlat => some (numValOf la)
      | .satlng => some (numValOf lo)
      | .satalt => some (.vnum altv)
      | .category => some (.vstr cat)
      | .last_update => some (.vnum now)
      | _ => none
  | _, _, _ => none

/-- Processing of one record of a GEO response body: convert the id
(`int(item["satid"])` may raise before any mutation), then run
`tracked.setdefault(satid, {})`, then build the update dict — if one of
its `float(...)` conversions raises, the empty entry inserted by the
`setdefault` persists — and finally apply the update.  The Bool is true
when an exception escapes the record. -/
noncomputable def geoItem (now : ℝ) (c : Catalog) (item : Obj) :
    Catalog × Bool :=
  match getSatid item with
  | none => (c, true)
  | some id =>
    match mkAboveUpd item id "GEO" (toNumD0 (item Field.satalt)) now with
    | none => (setdefaultC c id, true)
    | some u => (mergeC c id u, false)

/-- The LEO ceiling `LEO_MAX_ALT`. -/
def LEO_MAX_ALT : ℝ := 2000

/-- Processing of one record of an unfiltered ("all") response body: the
altitude is read first (before any mutation), records at or above the
LEO ceiling are skipped, then the id is converted, `setdefault` runs,
and the update dict is built — a coordinate conversion failure there
leaves the freshly inserted empty entry behind. -/
noncomputable def leoItem (now : ℝ) (c : Catalog) (item : Obj) :
    Catalog × Bool :=
  match toNumD0 (item Field.satalt) with
  | none => (c, true)
  | some alt =>
    if alt < LEO_MAX_ALT then
      match getSatid item with
      | none => (c, true)
      | some id =>
        match mkAboveUpd item id "LEO" (some alt) now with
        | none => (setdefaultC c id, true)
        | some u => (mergeC c id u, false)
    else (c, false)

/-- The `for item in resp.get("above", [])` loop: records are processed
left to right; the first exception aborts the rest of the loop (second
component `true`), leaving the mutations done so far — including a
partial `setdefault` of the failing record — in place. -/
def processItems (h : Catalog → Obj → Catalog × Bool) :
    Catalog → List Obj → Catalog × Bool
  | c, [] => (c, false)
  | c, item :: rest =>
    match h c item with
    | (c', true) => (c', true)
    | (c', false) => processItems h c' rest

/-- One fetched response as seen by the processing loops: either a raised
exception that `asyncio.gather(..., return_exceptions=True)` turned into
a value, or a JSON dict with an optional error message and a list of
records (the `above` array for sweeps, the `positions` array for
position fetches; a missing array reads as `[]`). -/
inductive Resp
  | exc
  | dict (error : Option String) (records : List Obj)

/-- Lowercasing of one ASCII character, as `error_msg.lower()` does for
the ASCII error messages involved. -/
def lowerChar (c : Char) : Char :=
  if 65 ≤ c.toNat ∧ c.toNat ≤ 90 then Char.ofNat (c.toNat + 32) else c

/-- Substring test over character lists. -/
def containsSub (s pat : List Char) : Bool :=
  s.tails.any fun t => pat.isPrefixOf t

/-- The rate-limit test of `tracker_loop`:
`"exceeded" in error_msg.lower() or "rate limit" in error_msg.lower()`. -/
def isRateLimit (msg : String) : Bool :=
  containsSub (msg.data.map lowerChar) "exceeded".data
    || containsSub (msg.data.map lowerChar) "rate limit".data

/-- How a response-processing loop ended: normally, by a propagating
exception, or by the rate-limit `break`. -/
inductive PStat
  | ok
  | exn
  | brk
  deriving DecidableEq

/-- The `for geo_resp in geo_responses` (resp. `all_responses`) loop:
exceptions in the response list are skipped; an error payload is
recorded as the last observed error, and a rate-limit error breaks out
of the loop; otherwise the record list is processed, and an exception
there aborts the whole pass. -/
def processResps (h : Catalog → Obj → Catalog × Bool) :
    Catalog → Option String → List Resp → Catalog × Option String × PStat
  | c, e, [] => (c, e, .ok)
  | c, e, .exc :: rest => processResps h c e rest
  | c, _, .dict (some msg) items :: rest =>
    if isRateLimit msg then (c, some msg, .brk)
    else
      match processItems h c items with
      | (c', false) => processResps h c' (some msg) rest
      | (c', true) => (c', some msg, .exn)
  | c, e, .dict none items :: rest =>
    match processItems h c items with
    | (c', false) => processResps h c' e rest
    | (c', true) => (c', e, .exn)

/-- The merging phase of one `tracker_loop` pass: the GEO responses are
processed first (`_last_n2yo_error` starts out reset to `None`); an
exception there skips the ALL processing, while the rate-limit `break`
only exits the GEO loop and the ALL loop still runs. -/
noncomputable def processPass (c : Catalog) (geoR allR : List Resp) (now : ℝ) :
    Catalog × Option String × PStat :=
  match processResps (geoItem now) c none geoR with
  | (c1, e1, .exn) => (c1, e1, .exn)
  | (c1, e1, .ok) => processResps (leoItem now) c1 e1 allR
  | (c1, e1, .brk) => processResps (leoItem now) c1 e1 allR

/-! ### Batched fetch issuance of one sweep pass -/

/-- A query region seed: a (latitude, longitude) pair. -/
abbrev Region := ℚ × ℚ

/-- The fixed seed list `ABOVE_SEEDS` of `main.py`. -/
def ABOVE_SEEDS : List Region :=
  [(0, 0), (0, 120), (0, 240), (45, 60), (45, 180), (45, 300)]

/-- `MAX_PARALLEL_REQUESTS = 4`. -/
def MAX_PARALLEL_REQUESTS : ℕ := 4

/-- `l[i : i + cap]` groups produced by `for i in range(0, len(l), cap)`;
the fuel argument (the list length suffices when the group size is
positive, as in the source) makes the recursion structural. -/
def chunksGo {α : Type} : ℕ → List α → ℕ → List (List α)
  | 0, _, _ => []
  | _, [], _ => []
  | n + 1, x :: xs, cap => (x :: xs).take cap :: chunksGo n ((x :: xs).drop cap) cap

/-- The batching of a region list into fixed-size groups. -/
def chunks {α : Type} (l : List α) (cap : ℕ) : List (List α) :=
  chunksGo l.length l cap

/-- The two fetch families of the sweep: the GEO-filtered `above` call and
the unfiltered one. -/
inductive Fam
  | geo
  | all
  deriving DecidableEq

/-- Events of the fetch phase of one pass: issuing a fetch against the
external source, and receiving its response. -/
inductive Ev
  | fetch (f : Fam) (r : Region)
  | recv (f : Fam) (r : Region) (resp : Resp)

/-- The event block of `batch_geo = await asyncio.gather(*geo_batch)`:
all fetches of the group are issued, then all their responses arrive
before control proceeds. -/
def geoHalf (O : Fam → Region → Resp) (b : List Region) : List Ev :=
  b.map (Ev.fetch .geo) ++ b.map fun r => Ev.recv .geo r (O .geo r)

/-- The event block of the subsequent `await asyncio.gather(*all_batch)`. -/
def allHalf (O : Fam → Region → Resp) (b : List Region) : List Ev :=
  b.map (Ev.fetch .all) ++ b.map fun r => Ev.recv .all r (O .all r)

/-- The events of one batch iteration: the GEO gather completes before the
ALL gather starts. -/
def batchEvents (O : Fam → Region → Resp) (b : List Region) : List Ev :=
  geoHalf O b ++ allHalf O b

/-- The full fetch-phase event trace of one sweep pass, for a response
oracle `O`: the groups run strictly one after another, with every fetch
of the pass issued before any response is inspected by the processing
loops. -/
def passTrace (O : Fam → Region → Resp) (regions : List Region) (cap : ℕ) :
    List Ev :=
  (chunks regions cap).flatMap (batchEvents O)

/-- Recognise a fetch-issuance event. -/
def isFetchB : Ev → Bool
  | .fetch _ _ => true
  | _ => false

/-- Recognise a response-arrival event. -/
def isRecvB : Ev → Bool
  | .recv _ _ _ => true
  | _ => false

/-- Recognise the arrival of a rate-limited response: the payload carries
an error message that the processing loop would classify as a rate
limit. -/
def isRLrecvB : Ev → Bool
  | .recv _ _ (.dict (some m) _) => isRateLimit m
  | _ => false

/-- Claim C5 as stated: once a rate-limit signal has been observed, no
further fetch is issued in the same pass. -/
def noFetchAfterRL (t : List Ev) : Prop :=
  ∀ i j, ∀ (hi : i < t.length) (hj : j < t.length),
    i < j → isRLrecvB (t.get ⟨i, hi⟩) = true → isFetchB (t.get ⟨j, hj⟩) = false

/-- The fetch events of a trace, in order. -/
def fetchesOf (t : List Ev) : List Ev := t.filter isFetchB

/-! ### Per-object position refresh (`positions_loop`) -/

/-- The update dict built by `update_position` from the first reported
position: exactly the keys satlat, satlng, satalt and last_update. -/
def mkPosUpd (la lo : Option ℝ) (alt now : ℝ) : Obj := fun f =>
  match f with
  | .satlat => some (numValOf la)
  | .satlng => some (numValOf lo)
  | .satalt => some (.vnum alt)
  | .last_update => some (.vnum now)
  | _ => none

/-- `update_position` of `main.py`: `none` for a raised-and-caught
exception, an error payload, an empty positions array, or a conversion
failure (all of which make the function return `None`); otherwise the
satid paired with the update dict taken from the first array entry.
The bookkeeping of `_last_n2yo_error` is not tracked here. -/
def update_position (satid : Int) (resp : Resp) (now : ℝ) :
    Option (Int × Obj) :=
  match resp with
  | .exc => none
  | .dict (some _) _ => none
  | .dict none [] => none
  | .dict none (latest :: _) =>
    match getNumField (latest Field.satlatitude),
        getNumField (latest Field.satlongitude),
        toNumD0 (latest Field.sataltitude) with
    | some la, some lo, some alt => some (satid, mkPosUpd la lo alt now)
    | _, _, _ => none

/-- Application of one gathered result in `positions_loop`:
`if satid in tracked: tracked[satid].update(updates)` — the update is
applied only to an id still present, and never creates an entry. -/
def applyPosResult (c : Catalog) (r : Option (Int × Obj)) : Catalog :=
  match r with
  | none => c
  | some (id, u) => if hasKey c id then updAt c id u else c

/-! ### Demo simulator (`_ensure_demo_catalog`, `_demo_step`) -/

/-- The test `s.get("category") == "LEO"` (resp. `"GEO"`). -/
def isCategory (s : Obj) (cat : String) : Bool :=
  match s Field.category with
  | some (.vstr c) => c == cat
  | _ => false

/-- Two-digit formatting `f"{n:02d}"` for the demo names. -/
def pad2 (n : ℕ) : String :=
  (if n < 10 then "0" else "") ++ toString n

/-- One of the 12 evenly spaced GEO demo entries. -/
def demoGeoObj (i : ℕ) (now : ℝ) : Obj := fun f =>
  match f with
  | .satid => some (.vint (900000 + (i : Int)))
  | .satname => some (.vstr ("GEO-" ++ pad2 (i + 1)))
  | .satlat => some (.vnum 0)
  | .satlng => some (.vnum ((i : ℝ) * 30))
  | .satalt => some (.vnum 35786)
  | .category => some (.vstr "GEO")
  | .last_update => some (.vnum now)
  | _ => none

/-- One of the 30 LEO demo entries. -/
def demoLeoObj (i : ℕ) (now : ℝ) : Obj := fun f =>
  match f with
  | .satid => some (.vint (910000 + (i : Int)))
  | .satname => some (.vstr ("LEO-" ++ pad2 (i + 1)))
  | .satlat => some (.vnum (((i % 6 : ℕ) : ℝ) * 10 - 25))
  | .satlng => some (.vnum (((i * 12) % 360 : ℕ) : ℝ))
  | .satalt => some (.vnum 550)
  | .category => some (.vstr "LEO")
  | .last_update => some (.vnum now)
  | _ => none

/-- `_ensure_demo_catalog`: a non-empty catalog is left untouched; an
empty one is populated with the 12 GEO and 30 LEO demo entries. -/
def ensureDemoCatalog (c : Catalog) (now : ℝ) : Catalog :=
  if c.isEmpty then
    ((List.range 12).map fun (i : ℕ) => ((900000 + i : Int), demoGeoObj i now))
      ++ ((List.range 30).map fun (i : ℕ) => ((910000 + i : Int), demoLeoObj i now))
  else c

/-- Python `x % m` for floats with a positive modulus. -/
noncomputable def realMod (x m : ℝ) : ℝ := x - m * ⌊x / m⌋

/-- `float(v or d)`: a missing, `None` or zero value falls back to the
default, as with Python truthiness. -/
noncomputable def orNum (o : Option Val) (d : ℝ) : ℝ :=
  match o with
  | some (.vnum r) => if r = 0 then d else r
  | some (.vint n) => if (n : ℝ) = 0 then d else (n : ℝ)
  | _ => d

/-- GEO angular rate of `_demo_step` (degrees per second). -/
noncomputable def omegaGeo : ℝ := 360 / (24 * 3600)

/-- LEO angular rate of `_demo_step` (≈ 95-minute orbit). -/
noncomputable def omegaLeo : ℝ := 360 / (95 * 60)

/-- The in-place mutation `_demo_step` performs on one entry: longitude
advanced by the elapsed time and wrapped modulo 360, latitude pinned to 0
for GEO or oscillating for LEO, and the timestamp refreshed.  All other
keys (in particular name and category) are untouched. -/
noncomputable def demoStepObj (now : ℝ) (s : Obj) : Obj :=
  let last := orNum (s Field.last_update) now
  let dt := max 0 (now - last)
  if isCategory s "GEO" then
    fun f =>
      match f with
      | .satlng => some (.vnum (realMod (orNum (s Field.satlng) 0 + omegaGeo * dt) 360))
      | .satlat => some (.vnum 0)
      | .last_update => some (.vnum now)
      | _ => s f
  else
    fun f =>
      match f with
      | .satlng => some (.vnum (realMod (orNum (s Field.satlng) 0 + omegaLeo * dt) 360))
      | .satlat => some (.vnum (30 * Real.sin (2 * Real.pi * realMod now (95 * 60) / (95 * 60))))
      | .last_update => some (.vnum now)
      | _ => s f

/-- `_demo_step`: advance every tracked entry in place. -/
noncomputable def demoStep (c : Catalog) (now : ℝ) : Catalog :=
  c.map fun p => (p.1, demoStepObj now p.2)

/-! ### `load_all_satellites` (no rate-limit break, same record shape) -/

/-- The response loop of `load_all_satellites`: responses carrying an
error payload are skipped entirely (`if not geo_resp.get("error")`), and
a record exception propagates out of the route handler after the merges
done so far. -/
def processRespsNB (h : Catalog → Obj → Catalog × Bool) :
    Catalog → List Resp → Catalog × Bool
  | c, [] => (c, false)
  | c, .exc :: rest => processRespsNB h c rest
  | c, .dict (some _) _ :: rest => processRespsNB h c rest
  | c, .dict none items :: rest =>
    match processItems h c items with
    | (c', false) => processRespsNB h c' rest
    | (c', true) => (c', true)

/-- The catalog effect of one `load_all_satellites` call: GEO responses
then altitude-filtered ALL responses. -/
noncomputable def loadAllApply (c : Catalog) (geoR allR : List Resp) (now : ℝ) :
    Catalog × Bool :=
  match processRespsNB (geoItem now) c geoR with
  | (c1, true) => (c1, true)
  | (c1, false) => processRespsNB (leoItem now) c1 allR

/-! ### Snapshot payload (`api_snapshot` / `broadcast_snapshot`) -/

/-- One alert entry `{"a": ..., "b": ..., "dist_km": ...}` built from a
proximity pair of catalog entries. -/
def alertOf (p : Obj × Obj × ℝ) : Option Val × Option Val × ℝ :=
  (p.1 Field.satname, p.2.1 Field.satname, p.2.2)

/-- The snapshot payload assembled identically by `api_snapshot` and
`broadcast_snapshot` from the values list and the proximity pairs. -/
structure Payload where
  sats : List Obj
  total : ℕ
  leo : ℕ
  geo : ℕ
  alertsCount : ℕ
  alerts : List (Option Val × Option Val × ℝ)

/-- Payload construction from `sats = list(tracked.values())` and
`pairs = find_close_pairs(sats, ...)`. -/
def mkPayload (sats : List Obj) (pairs : List (Obj × Obj × ℝ)) : Payload :=
  { sats := sats
    total := sats.length
    leo := sats.countP fun s => isCategory s "LEO"
    geo := sats.countP fun s => isCategory s "GEO"
    alertsCount := (pairs.map alertOf).length
    alerts := pairs.map alertOf }

/-- The values list `list(tracked.values())`. -/
def catValues (c : Catalog) : List Obj := c.map Prod.snd

/-- Catalog states reachable through the update operations of
`main.py`: sweeps, position refreshes, demo initialisation and demo
steps, and `load_all_satellites`. -/
inductive Reachable : Catalog → Prop
  | empty : Reachable []
  | sweep (c : Catalog) (geoR allR : List Resp) (now : ℝ) :
      Reachable c → Reachable (processPass c geoR allR now).1
  | posApply (c : Catalog) (id : Int) (resp : Resp) (now : ℝ) :
      Reachable c → Reachable (applyPosResult c (update_position id resp now))
  | demoInit (c : Catalog) (now : ℝ) :
      Reachable c → Reachable (ensureDemoCatalog c now)
  | demoAdvance (c : Catalog) (now : ℝ) :
      Reachable c → Reachable (demoStep c now)
  | loadAll (c : Catalog) (geoR allR : List Resp) (now : ℝ) :
      Reachable c → Reachable (loadAllApply c geoR allR now).1

/-! ### Broadcast tick (`broadcast_snapshot`) -/

/-- A subscriber handle. -/
abbrev Client := ℕ

/-- The delivery loop of one broadcast tick over the copy
`set(clients)`: each delivery is attempted inside its own
`try`/`except`, so one failure never stops the loop; failing
subscribers are collected into `dead`.  Returns (delivered-to list,
dead list). -/
def deliverLoop (ok : Client → Bool) : List Client → List Client × List Client
  | [] => ([], [])
  | w :: rest =>
    let r := deliverLoop ok rest
    if ok w then (w :: r.1, r.2) else (r.1, w :: r.2)

/-- One full broadcast tick: deliver to everyone, then
`clients.discard(d)` for every dead subscriber.  Returns (delivered-to
list, new subscriber set). -/
def broadcastTick (clients : List Client) (ok : Client → Bool) :
    List Client × List Client :=
  let r := deliverLoop ok clients
  (r.1, r.2.foldl (fun s d => s.filter fun w => !(w == d)) clients)

/-! ### Concrete data used by witnesses and counterexamples -/

/-- A catalog entry with a known latitude, used to exhibit snapshot
aliasing. -/
def exObj1 : Obj := fun f =>
  match f with
  | .satid => some (.vint 1)
  | .satlat => some (.vnum 1)
  | .category => some (.vstr "LEO")
  | _ => none

/-- An update that changes the latitude of `exObj1`. -/
def exUpd : Obj := fun f =>
  match f with
  | .satlat => some (.vnum 2)
  | _ => none

/-- A one-entry catalog. -/
def exCat : Catalog := [(1, exObj1)]

/-- A well-formed sweep record with the given satid. -/
def cItem (n : Int) : Obj := fun f =>
  match f with
  | .satid => some (.vint n)
  | .satname => some (.vstr "SAT")
  | .satlat => some (.vnum 1)
  | .satlng => some (.vnum 2)
  | .satalt => some (.vnum 3)
  | _ => none

/-- A malformed sweep record: the satid key is missing. -/
def badItem : Obj := fun f =>
  match f with
  | .satname => some (.vstr "NO-ID")
  | _ => none

/-- First merge payload of the disjoint-merge witness: only a name. -/
def uName : Obj := fun f =>
  match f with
  | .satname => some (.vstr "ISS")
  | _ => none

/-- Second merge payload of the disjoint-merge witness: a latitude and
the second call's timestamp. -/
def uPos : Obj := fun f =>
  match f with
  | .satlat => some (.vnum 10)
  | .last_update => some (.vnum 99)
  | _ => none

/-- A rate-limited response payload. -/
def rlResp : Resp := .dict (some "Rate limit exceeded") []

/-- An error-free, empty response payload. -/
def okResp : Resp := .dict none []

/-- A response oracle under which the very first GEO fetch of the sweep
is rate limited. -/
def exOracle : Fam → Region → Resp
  | .geo, r => if r = ((0 : ℚ), (0 : ℚ)) then rlResp else okResp
  | .all, _ => okResp

/-- A reported position record. -/
def posRecObj : Obj := fun f =>
  match f with
  | .satlatitude => some (.vnum 11)
  | .satlongitude => some (.vnum 22)
  | .sataltitude => some (.vnum 550)
  | _ => none

/-- A successful positions response carrying one reported position. -/
def posRespEx : Resp := .dict none [posRecObj]

/-- The result `update_position` produces for `posRespEx`. -/
def posResultEx : Int × Obj := (1, mkPosUpd (some 11) (some 22) 550 7)

/-- A sweep record with a fresh satid but a malformed (string) latitude:
the satid parses, `setdefault` inserts the empty entry, then the
`float(...)` conversion raises. -/
def badCoordItem : Obj := fun f =>
  match f with
  | .satid => some (.vint 9)
  | .satlat => some (.vstr "not-a-number")
  | _ => none

/-- The catalog left by a sweep pass whose single GEO response carries
only `badCoordItem`: the persistent category-less empty entry for id 9. -/
noncomputable def badSweepCatalog : Catalog :=
  (processPass [] [Resp.dict none [badCoordItem]] [] 5).1

/-! ## Catalog lookup and merge lemmas -/

theorem lookupC_nil (id : Int) : lookupC [] id = none := rfl

theorem lookupC_cons (p : Int × Obj) (c : Catalog) (id : Int) :
    lookupC (p :: c) id = if p.1 = id then some p.2 else lookupC c id := by
  by_cases h : p.1 = id
  · simp [lookupC, List.find?_cons_of_pos, h]
  · simp [lookupC, List.find?_cons_of_neg, h]

theorem lookupC_append (c1 c2 : Catalog) (id : Int) :
    lookupC (c1 ++ c2) id
      = ((lookupC c1 id).rec (lookupC c2 id) fun e => some e) := by
  induction c1 with
  | nil => simp [lookupC_nil]
  | cons p c1 ih =>
    by_cases h : p.1 = id
    · simp [List.cons_append, lookupC_cons, h]
    · simpa [List.cons_append, lookupC_cons, h] using ih

theorem hasKey_iff (c : Catalog) (id : Int) :
    hasKey c id = true ↔ (lookupC c id).isSome = true := by
  induction c with
  | nil => simp [hasKey, lookupC_nil]
  | cons p c ih =>
    by_cases h : p.1 = id
    · simp [hasKey, lookupC_cons, h]
    · simpa [hasKey, lookupC_cons, h] using ih

theorem lookupC_updAt_self (c : Catalog) (id : Int) (u : Obj) :
    lookupC (updAt c id u) id = (lookupC c id).map (dictUpdate · u) := by
  induction c with
  | nil => simp [updAt, lookupC_nil]
  | cons p c ih =>
    by_cases h : p.1 = id
    · simp [updAt, lookupC_cons, h]
    · simpa [updAt, lookupC_cons, h] using ih

theorem lookupC_updAt_ne (c : Catalog) (id : Int) (u : Obj) (k : Int)
    (h : k ≠ id) :
    lookupC (updAt c id u) k = lookupC c k := by
  have h' : ¬ (id = k) := fun e => h e.symm
  induction c with
  | nil => simp [updAt, lookupC_nil]
  | cons p c ih =>
    simp only [updAt, List.map_cons, beq_iff_eq] at ih ⊢
    by_cases hp : p.1 = id
    · rw [lookupC_cons, lookupC_cons]
      simp [hp, h', ih]
    · rw [lookupC_cons, lookupC_cons]
      simp [hp, ih]

theorem lookupC_setdefault_self (c : Catalog) (id : Int) :
    lookupC (setdefaultC c id) id = some ((lookupC c id).getD emptyObj) := by
  by_cases h : hasKey c id
  · rcases Option.isSome_iff_exists.mp ((hasKey_iff c id).mp h) with ⟨e, he⟩
    simp [setdefaultC, h, he]
  · have hn : lookupC c id = none := by
      rcases ho : lookupC c id with _ | e
      · rfl
      · exact absurd ((hasKey_iff c id).mpr (by simp [ho])) h
    simp [setdefaultC, h, lookupC_append, hn, lookupC_cons, lookupC_nil]

theorem lookupC_setdefault_ne (c : Catalog) (id : Int) (k : Int) (h : k ≠ id) :
    lookupC (setdefaultC c id) k = lookupC c k := by
  have h' : ¬ (id = k) := fun e => h e.symm
  by_cases hk : hasKey c id
  · simp [setdefaultC, hk]
  · rw [setdefaultC, if_neg hk, lookupC_append]
    rcases ho : lookupC c k with _ | e
    · simp [ho, lookupC_cons, lookupC_nil, h']
    · simp [ho]

theorem merge_lookup_self (c : Catalog) (id : Int) (u : Obj) :
    lookupC (mergeC c id u)
      id = some (dictUpdate ((lookupC c id).getD emptyObj) u) := by
  rw [mergeC, lookupC_updAt_self, lookupC_setdefault_self]
  rfl

theorem merge_lookup_ne (c : Catalog) (id : Int) (u : Obj) (k : Int)
    (h : k ≠ id) :
    lookupC (mergeC c id u) k = lookupC c k := by
  rw [mergeC, lookupC_updAt_ne _ _ _ _ h, lookupC_setdefault_ne _ _ _ h]

theorem dictUpdate_emptyObj (u : Obj) (f : Field) :
    dictUpdate emptyObj u f = u f := by
  rcases h : u f with _ | v <;> simp [dictUpdate, emptyObj, h]

/-- C2: applying the catalog merge (`tracked.setdefault(id, {})` followed
by `tracked[id].update(u)`) twice on the same id with disjoint field sets
yields an entry containing the union of both field sets, whose
last-update timestamp is the one carried by the second call; and a merge
on an unseen id creates a new entry containing exactly the supplied
fields. -/
theorem merge_disjoint_union (c : Catalog) (id : Int) (u1 u2 : Obj) (t2 : ℝ)
    (hd : ∀ f, u1 f = none ∨ u2 f = none)
    (ht : u2 Field.last_update = some (Val.vnum t2)) :
    (∃ e, lookupC (mergeC (mergeC c id u1) id u2) id = some e ∧
      (∀ f v, u1 f = some v → e f = some v) ∧
      (∀ f v, u2 f = some v → e f = some v) ∧
      e Field.last_update = some (Val.vnum t2)) ∧
    (∀ (c₀ : Catalog) (id₀ : Int) (u : Obj), lookupC c₀ id₀ = none →
      ∃ e₀, lookupC (mergeC c₀ id₀ u) id₀ = some e₀ ∧ ∀ f, e₀ f = u f) := by
  constructor
  · have h1 := merge_lookup_self c id u1
    have h2 := merge_lookup_self (mergeC c id u1) id u2
    rw [h1] at h2
    simp only [Option.getD_some] at h2
    refine ⟨_, h2, ?_, ?_, ?_⟩
    · intro f v hv
      rcases hd f with h0 | h0
      · rw [hv] at h0
        exact absurd h0 (by simp)
      · simp [dictUpdate, h0, hv]
    · intro f v hv
      simp [dictUpdate, hv]
    · simp [dictUpdate, ht]
  · intro c₀ id₀ u h0
    have h1 := merge_lookup_self c₀ id₀ u
    rw [h0] at h1
    simp only [Option.getD_none] at h1
    exact ⟨_, h1, fun f => dictUpdate_emptyObj u f⟩

/-- Concrete run of merge_disjoint_union: a name-only merge followed by a
position-and-timestamp merge on a fresh id. -/
theorem merge_disjoint_union_witness :
    (∃ e, lookupC (mergeC (mergeC [] 7 uName) 7 uPos) 7 = some e ∧
      (∀ f v, uName f = some v → e f = some v) ∧
      (∀ f v, uPos f = some v → e f = some v) ∧
      e Field.last_update = some (Val.vnum 99)) ∧
    (∀ (c₀ : Catalog) (id₀ : Int) (u : Obj), lookupC c₀ id₀ = none →
      ∃ e₀, lookupC (mergeC c₀ id₀ u) id₀ = some e₀ ∧ ∀ f, e₀ f = u f) :=
  merge_disjoint_union [] 7 uName uPos 99
    (fun f => by cases f <;> simp [uName, uPos]) rfl

/-- C6 counterexample: `sats = list(tracked.values())` copies only the
outer list, so a snapshot holds references to the live entry dicts, and
the merge pattern mutates those dicts in place.  At this concrete
catalog, reading the entries of an already-taken snapshot after one
subsequent merge yields different contents — refuting the claim that
snapshot entries are unaffected by later catalog mutations. -/
theorem snapshot_entry_mutates :
    readRefs (mergeC exCat 1 exUpd) (snapshotRefs exCat)
      ≠ readRefs exCat (snapshotRefs exCat) := by
  intro h
  have h0 : lookupC exCat 1 = some exObj1 := rfl
  have h1 := merge_lookup_self exCat 1 exUpd
  rw [h0] at h1
  simp only [Option.getD_some] at h1
  have h3 : lookupC (mergeC exCat 1 exUpd) 1 = lookupC exCat 1 := by
    simpa [readRefs, snapshotRefs, exCat] using h
  rw [h1, h0] at h3
  have h4 := congrFun (Option.some.inj h3) Field.satlat
  simp [dictUpdate, exUpd, exObj1] at h4

/-- C6 amended: the snapshot operation returns a shallow copy — the list
of references to the live entries, not copies.  A subsequent merge on an
id outside the snapshot leaves every snapshot read unchanged; a merge on
a snapshotted id is visible through the snapshot as the completely
applied update (so each read is still an internally consistent whole
entry), and reads of all other snapshotted ids are untouched. -/
theorem snapshot_reference_semantics (c : Catalog) (id : Int) (u : Obj) :
    (∀ e, lookupC c id = some e →
      readRefs (mergeC c id u) (snapshotRefs c)
        = (snapshotRefs c).map fun r =>
            if r = id then some (dictUpdate e u) else lookupC c r) ∧
    (id ∉ snapshotRefs c →
      readRefs (mergeC c id u) (snapshotRefs c)
        = readRefs c (snapshotRefs c)) := by
  constructor
  · intro e he
    unfold readRefs
    apply List.map_congr_left
    intro r _hr
    by_cases hrid : r = id
    · subst hrid
      rw [if_pos rfl, merge_lookup_self, he]
      rfl
    · rw [merge_lookup_ne _ _ _ _ hrid, if_neg hrid]
  · intro hid
    unfold readRefs
    apply List.map_congr_left
    intro r hr
    have hne : r ≠ id := fun e => hid (e ▸ hr)
    exact merge_lookup_ne _ _ _ _ hne

/-- Concrete run of snapshot_reference_semantics: a merge on the
snapshotted id 1 and a merge on the unseen id 2. -/
theorem snapshot_reference_semantics_witness :
    readRefs (mergeC exCat 1 exUpd) (snapshotRefs exCat)
      = ((snapshotRefs exCat).map fun r =>
          if r = 1 then some (dictUpdate exObj1 exUpd) else lookupC exCat r) ∧
    readRefs (mergeC exCat 2 exUpd) (snapshotRefs exCat)
      = readRefs exCat (snapshotRefs exCat) :=
  ⟨(snapshot_reference_semantics exCat 1 exUpd).1 exObj1 rfl,
   (snapshot_reference_semantics exCat 2 exUpd).2 (by simp [snapshotRefs, exCat])⟩

/-- C7: a successful per-object position fetch produces an update for
exactly the fetched object, carrying only the satlat/satlng/satalt and
last_update keys with the coordinate values taken from the first
reported position; applying it changes no other catalog entry, leaves
the object's satid, name and category untouched, and never erases a
previously present field. -/
theorem position_update_frame (id : Int) (resp : Resp) (now : ℝ)
    (c : Catalog) (r : Int × Obj)
    (h : update_position id resp now = some r) :
    r.1 = id ∧
    (∀ f, f ≠ Field.satlat → f ≠ Field.satlng → f ≠ Field.satalt →
      f ≠ Field.last_update → r.2 f = none) ∧
    r.2 Field.last_update = some (Val.vnum now) ∧
    (∃ latest rest la lo alt, resp = .dict none (latest :: rest) ∧
      getNumField (latest Field.satlatitude) = some la ∧
      getNumField (latest Field.satlongitude) = some lo ∧
      toNumD0 (latest Field.sataltitude) = some alt ∧
      r.2 = mkPosUpd la lo alt now) ∧
    (∀ k, k ≠ id → lookupC (applyPosResult c (some r)) k = lookupC c k) ∧
    (∀ e, lookupC c id = some e →
      lookupC (applyPosResult c (some r)) id = some (dictUpdate e r.2) ∧
      (∀ f, f ≠ Field.satlat → f ≠ Field.satlng → f ≠ Field.satalt →
        f ≠ Field.last_update → dictUpdate e r.2 f = e f) ∧
      (∀ f, (e f).isSome = true → (dictUpdate e r.2 f).isSome = true)) := by
  cases resp with
  | exc => exact absurd h (by simp [update_position])
  | dict err recs =>
    cases err with
    | some m => exact absurd h (by simp [update_position])
    | none =>
      cases recs with
      | nil => exact absurd h (by simp [update_position])
      | cons latest rest =>
        rcases hla : getNumField (latest Field.satlatitude) with _ | la
        · simp [update_position, hla] at h
        · rcases hlo : getNumField (latest Field.satlongitude) with _ | lo
          · simp [update_position, hla, hlo] at h
          · rcases halt : toNumD0 (latest Field.sataltitude) with _ | alt
            · simp [update_position, hla, hlo, halt] at h
            · rw [update_position, hla, hlo, halt] at h
              obtain rfl : (id, mkPosUpd la lo alt now) = r := Option.some.inj h
              refine ⟨rfl, ?_, rfl,
                ⟨latest, rest, la, lo, alt, rfl, hla, hlo, halt, rfl⟩, ?_, ?_⟩
              · intro f h1 h2 h3 h4
                cases f <;> simp_all [mkPosUpd]
              · intro k hk
                simp only [applyPosResult]
                by_cases hkey : hasKey c id = true
                · rw [if_pos hkey]
                  exact lookupC_updAt_ne c id _ k hk
                · rw [if_neg hkey]
              · intro e he
                have hkey : hasKey c id = true :=
                  (hasKey_iff c id).mpr (by simp [he])
                refine ⟨?_, ?_, ?_⟩
                · simp only [applyPosResult, if_pos hkey]
                  rw [lookupC_updAt_self, he]
                  rfl
                · intro f h1 h2 h3 h4
                  cases f <;> simp_all [mkPosUpd, dictUpdate]
                · intro f hf
                  rcases hu : mkPosUpd la lo alt now f with _ | v
                  · simpa [dictUpdate, hu] using hf
                  · simp [dictUpdate, hu]

/-- Concrete run of position_update_frame on a one-entry catalog and a
successful single-position response. -/
theorem position_update_frame_witness :
    posResultEx.1 = 1 ∧
    (∀ f, f ≠ Field.satlat → f ≠ Field.satlng → f ≠ Field.satalt →
      f ≠ Field.last_update → posResultEx.2 f = none) ∧
    posResultEx.2 Field.last_update = some (Val.vnum 7) ∧
    (∃ latest rest la lo alt, posRespEx = .dict none (latest :: rest) ∧
      getNumField (latest Field.satlatitude) = some la ∧
      getNumField (latest Field.satlongitude) = some lo ∧
      toNumD0 (latest Field.sataltitude) = some alt ∧
      posResultEx.2 = mkPosUpd la lo alt 7) ∧
    (∀ k, k ≠ 1 → lookupC (applyPosResult exCat (some posResultEx)) k
      = lookupC exCat k) ∧
    (∀ e, lookupC exCat 1 = some e →
      lookupC (applyPosResult exCat (some posResultEx)) 1
        = some (dictUpdate e posResultEx.2) ∧
      (∀ f, f ≠ Field.satlat → f ≠ Field.satlng → f ≠ Field.satalt →
        f ≠ Field.last_update → dictUpdate e posResultEx.2 f = e f) ∧
      (∀ f, (e f).isSome = true → (dictUpdate e posResultEx.2 f).isSome = true)) :=
  position_update_frame 1 posRespEx 7 exCat posResultEx rfl

/-! ## Record-loop lemmas for the sweep pass -/

theorem processItems_append_ok (h : Catalog → Obj → Catalog × Bool)
    (l1 : List Obj) :
    ∀ (c c' : Catalog) (l2 : List Obj),
      processItems h c l1 = (c', false) →
      processItems h c (l1 ++ l2) = processItems h c' l2 := by
  induction l1 with
  | nil =>
    intro c c' l2 h1
    simp only [processItems, Prod.mk.injEq] at h1
    rw [List.nil_append, h1.1]
  | cons a l1 ih =>
    intro c c' l2 h1
    rcases ha : h c a with ⟨c1, b⟩
    cases b
    · simp only [List.cons_append, processItems, ha] at h1 ⊢
      exact ih c1 c' l2 h1
    · simp [processItems, ha] at h1

theorem processItems_fail_head (h : Catalog → Obj → Catalog × Bool)
    (c cbad : Catalog) (bad : Obj) (post : List Obj)
    (hbad : h c bad = (cbad, true)) :
    processItems h c (bad :: post) = (cbad, true) := by
  simp [processItems, hbad]

/-- C4 counterexample: in the batch `[cItem 1, badItem, cItem 3]` the
malformed middle record (its satid key is missing) raises a `KeyError`
inside the record loop of the sweep pass, and the surrounding per-pass
exception handler catches it — so the well-formed record with satid 3
later in the same batch is never merged into the catalog.  This refutes
the claim that a malformed record is skipped per-record with all other
records of the batch still merged. -/
theorem malformed_record_aborts_batch :
    ¬ (∀ item ∈ [cItem 1, badItem, cItem 3], ∀ id,
        getSatid item = some id →
        (lookupC (processItems (geoItem 5) ([] : Catalog)
          [cItem 1, badItem, cItem 3]).1 id).isSome = true) := by
  intro hcl
  have h3 := hcl (cItem 3) (by simp) 3 rfl
  have h0 : (lookupC (processItems (geoItem 5) ([] : Catalog)
      [cItem 1, badItem, cItem 3]).1 3).isSome = false := rfl
  rw [h0] at h3
  exact absurd h3 (by simp)

/-- C4 amended: a malformed record makes the record loop raise; the
per-pass handler catches the exception, so the records before it in the
pass stay merged, the records after it in the same pass are skipped, and
the sweep loop itself survives to its next pass.  The failing record's
own contribution depends on where it raised: a missing or unparsable id
raises before any mutation and leaves the catalog as it was, while a
record whose id parsed but whose coordinate conversion raised leaves the
persistent empty entry that `setdefault` had already inserted.  The
merge operation itself is total: it always produces an entry for the
merged id. -/
theorem malformed_record_partial_merge (now : ℝ) (c c' : Catalog)
    (pre post : List Obj) (bad : Obj)
    (hpre : processItems (geoItem now) c pre = (c', false))
    (hbad : (geoItem now c' bad).2 = true) :
    processItems (geoItem now) c (pre ++ bad :: post)
      = ((geoItem now c' bad).1, true) ∧
    (getSatid bad = none → (geoItem now c' bad).1 = c') ∧
    (∀ id, getSatid bad = some id →
      (geoItem now c' bad).1 = setdefaultC c' id) ∧
    (∀ (c₀ : Catalog) (id : Int) (u : Obj),
      ∃ e, lookupC (mergeC c₀ id u) id = some e) := by
  have hb : geoItem now c' bad = ((geoItem now c' bad).1, true) := by
    rcases hx : geoItem now c' bad with ⟨cb, b2⟩
    rw [hx] at hbad
    simp only at hbad
    rw [hbad]
  refine ⟨?_, ?_, ?_, ?_⟩
  · rw [processItems_append_ok (geoItem now) pre c c' _ hpre,
      processItems_fail_head _ _ _ _ _ hb]
  · intro hid
    unfold geoItem
    rw [hid]
  · intro id hid
    have h2 := hbad
    unfold geoItem at h2 ⊢
    rw [hid] at h2 ⊢
    change (match mkAboveUpd bad id "GEO" (toNumD0 (bad Field.satalt)) now with
      | none => (setdefaultC c' id, true)
      | some u => (mergeC c' id u, false)).1 = setdefaultC c' id
    change (match mkAboveUpd bad id "GEO" (toNumD0 (bad Field.satalt)) now with
      | none => (setdefaultC c' id, true)
      | some u => (mergeC c' id u, false)).2 = true at h2
    rcases hm : mkAboveUpd bad id "GEO" (toNumD0 (bad Field.satalt)) now
        with _ | u
    · rfl
    · rw [hm] at h2
      simp at h2
  · intro c₀ id u
    exact ⟨_, merge_lookup_self c₀ id u⟩

/-- Concrete run of malformed_record_partial_merge: the record before the
failing one is merged, the failing record (fresh id 9, string latitude)
leaves only the empty entry inserted by its `setdefault`, and everything
after it is dropped. -/
theorem malformed_record_partial_merge_witness :
    processItems (geoItem 5) [] ([cItem 1] ++ badCoordItem :: [cItem 3])
      = ((geoItem 5 (processItems (geoItem 5) ([] : Catalog) [cItem 1]).1
          badCoordItem).1, true) ∧
    (getSatid badCoordItem = none →
      (geoItem 5 (processItems (geoItem 5) ([] : Catalog) [cItem 1]).1
          badCoordItem).1
        = (processItems (geoItem 5) ([] : Catalog) [cItem 1]).1) ∧
    (∀ id, getSatid badCoordItem = some id →
      (geoItem 5 (processItems (geoItem 5) ([] : Catalog) [cItem 1]).1
          badCoordItem).1
        = setdefaultC (processItems (geoItem 5) ([] : Catalog) [cItem 1]).1
            id) ∧
    (∀ (c₀ : Catalog) (id : Int) (u : Obj),
      ∃ e, lookupC (mergeC c₀ id u) id = some e) :=
  malformed_record_partial_merge 5 []
    (processItems (geoItem 5) ([] : Catalog) [cItem 1]).1
    [cItem 1] [cItem 3] badCoordItem rfl rfl

/-! ## Broadcast tick lemmas -/

theorem deliverLoop_mem_fst (ok : Client → Bool) :
    ∀ (l : List Client) (w : Client), w ∈ l → ok w = true →
      w ∈ (deliverLoop ok l).1 := by
  intro l
  induction l with
  | nil => intro w hw _; cases hw
  | cons a l ih =>
    intro w hw hok
    rcases List.mem_cons.mp hw with rfl | hw'
    · simp [deliverLoop, hok]
    · have hm := ih w hw' hok
      by_cases ha : ok a = true <;> simp [deliverLoop, ha, hm]

theorem deliverLoop_mem_snd (ok : Client → Bool) :
    ∀ (l : List Client) (w : Client), w ∈ l → ok w = false →
      w ∈ (deliverLoop ok l).2 := by
  intro l
  induction l with
  | nil => intro w hw _; cases hw
  | cons a l ih =>
    intro w hw hok
    rcases List.mem_cons.mp hw with rfl | hw'
    · simp [deliverLoop, hok]
    · have hm := ih w hw' hok
      by_cases ha : ok a = true <;> simp [deliverLoop, ha, hm]

theorem foldl_filter_subset (L : List Client) :
    ∀ (s : List Client),
      (L.foldl (fun s d => s.filter fun w => !(w == d)) s) ⊆ s := by
  induction L with
  | nil => intro s x hx; exact hx
  | cons d L ih =>
    intro s x hx
    exact List.mem_of_mem_filter (ih _ hx)

theorem foldl_filter_not_mem :
    ∀ (L : List Client) (s : List Client) (x : Client), x ∈ L →
      x ∉ L.foldl (fun s d => s.filter fun w => !(w == d)) s := by
  intro L
  induction L with
  | nil => intro s x hx; cases hx
  | cons d L ih =>
    intro s x hx
    rcases List.mem_cons.mp hx with rfl | hx'
    · intro hmem
      have hsub := foldl_filter_subset L (s.filter fun w => !(w == x))
      have hfil := hsub hmem
      have := (List.mem_filter.mp hfil).2
      simp at this
    · exact ih (s.filter _) x hx'

/-- C8: during one broadcast tick, every delivery is attempted inside its
own exception handler, so a delivery failure to one subscriber does not
prevent delivery of the same payload to any other subscriber in that
tick; and every failing subscriber is discarded from the subscriber set
by the end of the tick. -/
theorem broadcast_isolation (clients : List Client) (ok : Client → Bool)
    (w : Client) (hw : w ∈ clients) :
    (ok w = true → w ∈ (broadcastTick clients ok).1) ∧
    (ok w = false → w ∉ (broadcastTick clients ok).2) := by
  constructor
  · intro hok
    exact deliverLoop_mem_fst ok clients w hw hok
  · intro hok
    have hd : w ∈ (deliverLoop ok clients).2 :=
      deliverLoop_mem_snd ok clients w hw hok
    exact foldl_filter_not_mem _ _ _ hd

/-- Concrete run of broadcast_isolation: with subscriber 2 failing out of
three subscribers, subscriber 1 is still delivered to and subscriber 2
leaves the set. -/
theorem broadcast_isolation_witness :
    (1 : Client) ∈ (broadcastTick [1, 2, 3] fun w => !(w == 2)).1 ∧
    (2 : Client) ∉ (broadcastTick [1, 2, 3] fun w => !(w == 2)).2 :=
  ⟨(broadcast_isolation [1, 2, 3] (fun w => !(w == 2)) 1 (by decide)).1 rfl,
   (broadcast_isolation [1, 2, 3] (fun w => !(w == 2)) 2 (by decide)).2 rfl⟩

/-! ## Batching and trace lemmas for the sweep pass -/

theorem chunksGo_mem_length {α : Type} :
    ∀ (fuel : ℕ) (l : List α) (cap : ℕ) (b : List α),
      b ∈ chunksGo fuel l cap → b.length ≤ cap := by
  intro fuel
  induction fuel with
  | zero => intro l cap b hb; simp [chunksGo] at hb
  | succ n ih =>
    intro l cap b hb
    cases l with
    | nil => simp [chunksGo] at hb
    | cons x xs =>
      rcases List.mem_cons.mp hb with rfl | hb'
      · rw [List.length_take]
        exact min_le_left _ _
      · exact ih _ _ _ hb'

theorem chunks_mem_length {α : Type} (l : List α) (cap : ℕ) (b : List α)
    (hb : b ∈ chunks l cap) : b.length ≤ cap :=
  chunksGo_mem_length l.length l cap b hb

theorem chunksGo_flatten {α : Type} :
    ∀ (fuel : ℕ) (l : List α) (cap : ℕ), l.length ≤ fuel → 1 ≤ cap →
      (chunksGo fuel l cap).flatten = l := by
  intro fuel
  induction fuel with
  | zero =>
    intro l cap hl _
    rw [List.eq_nil_of_length_eq_zero (Nat.le_zero.mp hl)]
    rfl
  | succ n ih =>
    intro l cap hl hcap
    cases l with
    | nil => rfl
    | cons x xs =>
      rw [chunksGo, List.flatten_cons, ih _ cap ?_ hcap, List.take_append_drop]
      have hd : ((x :: xs).drop cap).length = (x :: xs).length - cap :=
        List.length_drop _ _
      have hxl : (x :: xs).length ≤ n + 1 := hl
      omega

theorem chunks_flatten {α : Type} (l : List α) (cap : ℕ) (hcap : 1 ≤ cap) :
    (chunks l cap).flatten = l :=
  chunksGo_flatten l.length l cap le_rfl hcap

theorem countP_map_true {α : Type} (p : Ev → Bool) (g : α → Ev)
    (h : ∀ a, p (g a) = true) :
    ∀ l : List α, (l.map g).countP p = l.length := by
  intro l
  induction l with
  | nil => rfl
  | cons a l ih => rw [List.map_cons, List.countP_cons, ih, h a]; simp

theorem countP_map_false {α : Type} (p : Ev → Bool) (g : α → Ev)
    (h : ∀ a, p (g a) = false) :
    ∀ l : List α, (l.map g).countP p = 0 := by
  intro l
  induction l with
  | nil => rfl
  | cons a l ih => rw [List.map_cons, List.countP_cons, ih, h a]; simp

theorem half_balance (f : Fam) (mk : Region → Ev)
    (hmk : ∀ r, isFetchB (mk r) = false ∧ isRecvB (mk r) = true)
    (b : List Region) :
    (b.map (Ev.fetch f) ++ b.map mk).countP isFetchB
      = (b.map (Ev.fetch f) ++ b.map mk).countP isRecvB := by
  rw [List.countP_append, List.countP_append,
    countP_map_true isFetchB (Ev.fetch f) (fun _ => rfl),
    countP_map_false isRecvB (Ev.fetch f) (fun _ => rfl),
    countP_map_false isFetchB mk (fun r => (hmk r).1),
    countP_map_true isRecvB mk (fun r => (hmk r).2)]
  simp [List.length_map]

theorem half_prefix_bound (cap : ℕ) (f : Fam) (mk : Region → Ev)
    (hmk : ∀ r, isFetchB (mk r) = false)
    (b : List Region) (hb : b.length ≤ cap) (n : ℕ) :
    (((b.map (Ev.fetch f) ++ b.map mk).take n).countP isFetchB)
      ≤ (((b.map (Ev.fetch f) ++ b.map mk).take n).countP isRecvB) + cap := by
  rw [List.take_append_eq_append_take, List.countP_append, List.countP_append,
    ← List.map_take, ← List.map_take,
    countP_map_true isFetchB (Ev.fetch f) (fun _ => rfl),
    countP_map_false isFetchB mk hmk]
  have h1 : (b.take n).length ≤ b.length := by
    rw [List.length_take]
    exact min_le_right _ _
  omega

theorem flatten_prefix_bound (cap : ℕ) :
    ∀ (blocks : List (List Ev)),
      (∀ b ∈ blocks, b.countP isFetchB = b.countP isRecvB ∧
        ∀ n, (b.take n).countP isFetchB ≤ (b.take n).countP isRecvB + cap) →
      ∀ n, ((blocks.flatten).take n).countP isFetchB
        ≤ ((blocks.flatten).take n).countP isRecvB + cap := by
  intro blocks
  induction blocks with
  | nil => intro _ n; simp
  | cons b bs ih =>
    intro hb n
    have hhead := hb b (List.mem_cons_self b bs)
    have htail := ih fun x hx => hb x (List.mem_cons_of_mem b hx)
    rw [List.flatten_cons, List.take_append_eq_append_take,
      List.countP_append, List.countP_append]
    by_cases hn : n ≤ b.length
    · have h0 : n - b.length = 0 := Nat.sub_eq_zero_of_le hn
      rw [h0]
      simpa using hhead.2 n
    · push_neg at hn
      have hfull : b.take n = b := List.take_of_length_le (le_of_lt hn)
      rw [hfull]
      have h1 := hhead.1
      have h2 := htail (n - b.length)
      omega

theorem flatMap_batchEvents (O : Fam → Region → Resp) :
    ∀ L : List (List Region),
      L.flatMap (batchEvents O)
        = (L.flatMap fun b => [geoHalf O b, allHalf O b]).flatten := by
  intro L
  induction L with
  | nil => rfl
  | cons b L ih =>
    simp only [List.flatMap_cons, List.flatten_append, ih, batchEvents]
    simp [List.append_assoc]

theorem passTrace_eq_flatten (O : Fam → Region → Resp)
    (regions : List Region) (cap : ℕ) :
    passTrace O regions cap
      = ((chunks regions cap).flatMap fun b => [geoHalf O b, allHalf O b]).flatten :=
  flatMap_batchEvents O (chunks regions cap)

/-- C9: the regional sweep over the 6 fixed seed regions with parallelism
cap 4 is issued in exactly two region groups of sizes 4 and 2; the trace
of any pass keeps each gather group strictly inside the cap, so at every
prefix of the trace the number of issued fetches never exceeds the
number of completed ones by more than `MAX_PARALLEL_REQUESTS` — no more
than 4 fetches are in flight at any moment. -/
theorem sweep_batching_bound :
    ((chunks ABOVE_SEEDS MAX_PARALLEL_REQUESTS).map List.length = [4, 2]) ∧
    ∀ (O : Fam → Region → Resp) (n : ℕ),
      ((passTrace O ABOVE_SEEDS MAX_PARALLEL_REQUESTS).take n).countP isFetchB
        ≤ ((passTrace O ABOVE_SEEDS MAX_PARALLEL_REQUESTS).take n).countP isRecvB
          + MAX_PARALLEL_REQUESTS := by
  constructor
  · rfl
  · intro O n
    rw [passTrace_eq_flatten]
    apply flatten_prefix_bound
    · intro b hb
      rcases List.mem_flatMap.mp hb with ⟨g, hg, hbg⟩
      have hlen : g.length ≤ MAX_PARALLEL_REQUESTS :=
        chunks_mem_length ABOVE_SEEDS MAX_PARALLEL_REQUESTS g hg
      have hgb : b = geoHalf O g ∨ b = allHalf O g := by
        simpa using hbg
      rcases hgb with rfl | rfl
      · exact ⟨half_balance .geo (fun r => Ev.recv .geo r (O .geo r))
            (fun r => ⟨rfl, rfl⟩) g,
          half_prefix_bound MAX_PARALLEL_REQUESTS .geo
            (fun r => Ev.recv .geo r (O .geo r)) (fun r => rfl) g hlen⟩
      · exact ⟨half_balance .all (fun r => Ev.recv .all r (O .all r))
            (fun r => ⟨rfl, rfl⟩) g,
          half_prefix_bound MAX_PARALLEL_REQUESTS .all
            (fun r => Ev.recv .all r (O .all r)) (fun r => rfl) g hlen⟩

/-- C5 counterexample: under an oracle whose very first GEO fetch returns
a rate-limited payload, the pass still issues further fetches after that
response has arrived — the error payload is only inspected during the
later response-processing phase, after every fetch of the pass was
already issued.  Event 4 of the trace is the arrival of the rate-limited
response and event 8 is a subsequent fetch, refuting the claim that no
further fetches are issued in the same pass once the signal is
observed. -/
theorem fetch_after_rate_limit :
    ¬ noFetchAfterRL (passTrace exOracle ABOVE_SEEDS MAX_PARALLEL_REQUESTS) := by
  intro h
  exact absurd (h 4 8 (by decide) (by decide) (by decide) (by decide)) (by decide)

/-- C5 amended: the fetch phase of a pass is oblivious to the responses —
the fetches issued are the same under every response oracle, so a
rate-limit payload arriving mid-pass does not stop the remaining
fetches.  What the rate-limit signal does short-circuit is the response
processing: the processing loop stops at the rate-limited response,
recording it as the last error and merging nothing from it or from the
remaining responses of that family.  The next scheduled pass retries in
full — every region of the list is fetched in every pass. -/
theorem rate_limit_break_semantics :
    (∀ (O O' : Fam → Region → Resp) (regions : List Region) (cap : ℕ),
      fetchesOf (passTrace O regions cap)
        = fetchesOf (passTrace O' regions cap)) ∧
    (∀ (h : Catalog → Obj → Catalog × Bool) (c : Catalog) (e : Option String)
      (msg : String) (items : List Obj) (rest : List Resp),
      isRateLimit msg = true →
      processResps h c e (.dict (some msg) items :: rest)
        = (c, some msg, .brk)) ∧
    (∀ (O : Fam → Region → Resp) (regions : List Region) (cap : ℕ)
      (r : Region), r ∈ regions → 1 ≤ cap →
      Ev.fetch .geo r ∈ passTrace O regions cap) := by
  refine ⟨?_, ?_, ?_⟩
  · intro O O' regions cap
    have key : ∀ (Q : Fam → Region → Resp) (L : List (List Region)),
        fetchesOf (L.flatMap (batchEvents Q))
          = L.flatMap fun b => b.map (Ev.fetch .geo) ++ b.map (Ev.fetch .all) := by
      intro Q L
      induction L with
      | nil => rfl
      | cons b L ih =>
        rw [List.flatMap_cons, List.flatMap_cons, fetchesOf, List.filter_append,
          ← fetchesOf, ← fetchesOf, ih]
        have hbe : fetchesOf (batchEvents Q b)
            = b.map (Ev.fetch .geo) ++ b.map (Ev.fetch .all) := by
          rw [batchEvents, geoHalf, allHalf, fetchesOf, List.filter_append,
            List.filter_append, List.filter_append]
          rw [List.filter_map, List.filter_map, List.filter_map, List.filter_map]
          simp [Function.comp_def, isFetchB, List.filter_eq_self]
        rw [hbe]
    rw [passTrace, passTrace, key O, key O']
  · intro h c e msg items rest hrl
    simp [processResps, hrl]
  · intro O regions cap r hr hcap
    have hr' : r ∈ (chunks regions cap).flatten := by
      rw [chunks_flatten regions cap hcap]
      exact hr
    rcases List.mem_flatten.mp hr' with ⟨g, hg, hrg⟩
    refine List.mem_flatMap.mpr ⟨g, hg, ?_⟩
    rw [batchEvents, geoHalf]
    refine List.mem_append.mpr (Or.inl (List.mem_append.mpr (Or.inl ?_)))
    exact List.mem_map.mpr ⟨r, hrg, rfl⟩

/-- Concrete run of rate_limit_break_semantics: the rate-limited oracle
issues the same fetches as an all-ok oracle, a rate-limited response
short-circuits the processing of its family before any of its records
are merged, and the first seed region is fetched in every pass. -/
theorem rate_limit_break_semantics_witness :
    fetchesOf (passTrace exOracle ABOVE_SEEDS MAX_PARALLEL_REQUESTS)
      = fetchesOf (passTrace (fun _ _ => okResp) ABOVE_SEEDS
          MAX_PARALLEL_REQUESTS) ∧
    processResps (geoItem 0) [] none
        (.dict (some "Rate limit exceeded") [cItem 1] :: [okResp])
      = ([], some "Rate limit exceeded", .brk) ∧
    Ev.fetch .geo ((0 : ℚ), (0 : ℚ))
      ∈ passTrace exOracle ABOVE_SEEDS MAX_PARALLEL_REQUESTS :=
  ⟨rate_limit_break_semantics.1 exOracle (fun _ _ => okResp) ABOVE_SEEDS
      MAX_PARALLEL_REQUESTS,
   rate_limit_break_semantics.2.1 (geoItem 0) [] none "Rate limit exceeded"
      [cItem 1] [okResp] (by decide),
   rate_limit_break_semantics.2.2 exOracle ABOVE_SEEDS MAX_PARALLEL_REQUESTS
      ((0 : ℚ), (0 : ℚ)) (by decide) (by decide)⟩

/-! ## Snapshot payload counts -/

theorem isCategory_excl (s : Obj) :
    ¬(isCategory s "LEO" = true ∧ isCategory s "GEO" = true) := by
  rintro ⟨h1, h2⟩
  unfold isCategory at h1 h2
  rcases hc : s Field.category with _ | v
  · rw [hc] at h1
    cases h1
  · rw [hc] at h1 h2
    cases v <;> simp at h1 h2
    rw [h1] at h2
    exact absurd h2 (by decide)

theorem countP_add_le_of_disjoint {α : Type} (p q : α → Bool) :
    ∀ l : List α, (∀ x ∈ l, ¬(p x = true ∧ q x = true)) →
      l.countP p + l.countP q ≤ l.length := by
  intro l
  induction l with
  | nil => intro _; simp
  | cons a l ih =>
    intro h
    have ha := h a (List.mem_cons_self a l)
    have ht := ih fun x hx => h x (List.mem_cons_of_mem a hx)
    cases hp : p a <;> cases hq : q a
    · simp [List.countP_cons, hp, hq]
      omega
    · simp [List.countP_cons, hp, hq]
      omega
    · simp [List.countP_cons, hp, hq]
      omega
    · exact absurd ⟨hp, hq⟩ ha

/-- C10 counterexample: the sweep loops run `tracked.setdefault(satid, {})`
before evaluating the update dict, so a record with a fresh satid and a
malformed coordinate value leaves a persistent category-less empty entry
in the catalog.  The snapshot payload of the resulting catalog — reached
from the empty catalog by one sweep pass — counts that entry in
counts.total but in neither counts.leo nor counts.geo, refuting
counts.leo + counts.geo = counts.total. -/
theorem payload_counts_gap :
    Reachable badSweepCatalog ∧
    (mkPayload (catValues badSweepCatalog) []).leo
        + (mkPayload (catValues badSweepCatalog) []).geo
      ≠ (mkPayload (catValues badSweepCatalog) []).total := by
  constructor
  · exact Reachable.sweep [] [Resp.dict none [badCoordItem]] [] 5
      Reachable.empty
  · intro h
    rw [show (mkPayload (catValues badSweepCatalog) []).leo = 0 from rfl,
      show (mkPayload (catValues badSweepCatalog) []).geo = 0 from rfl,
      show (mkPayload (catValues badSweepCatalog) []).total = 1 from rfl] at h
    simp at h

/-- C10 amended: every snapshot payload produced (by the broadcaster or
the on-demand query surface) satisfies counts.total equal to the length
of the object list and counts.alerts equal to the length of the alert
list, and counts.leo + counts.geo ≤ counts.total, since no entry counts
as both LEO and GEO.  Equality can fail: a sweep record whose coordinate
conversion raises after its `setdefault` leaves a persistent
category-less entry counted only in counts.total. -/
theorem payload_counts_bounded (sats : List Obj)
    (pairs : List (Obj × Obj × ℝ)) :
    (mkPayload sats pairs).total = (mkPayload sats pairs).sats.length ∧
    (mkPayload sats pairs).alertsCount
      = (mkPayload sats pairs).alerts.length ∧
    (mkPayload sats pairs).leo + (mkPayload sats pairs).geo
      ≤ (mkPayload sats pairs).total := by
  refine ⟨rfl, rfl, ?_⟩
  unfold mkPayload
  apply countP_add_le_of_disjoint
  intro s _
  exact isCategory_excl s


/-! ## Geometry claims -/

/-- C3: for every pair of valid geodetic points (latitude in [-90, 90],
longitude in [0, 360], altitude nonnegative) the computed distance is
symmetric, and the distance from a point to itself is zero. -/
theorem distance_symm_self_zero (lat1 lon1 alt1 lat2 lon2 alt2 : ℝ)
    (_h1 : -90 ≤ lat1 ∧ lat1 ≤ 90) (_h2 : 0 ≤ lon1 ∧ lon1 ≤ 360)
    (_h3 : 0 ≤ alt1) (_h4 : -90 ≤ lat2 ∧ lat2 ≤ 90)
    (_h5 : 0 ≤ lon2 ∧ lon2 ≤ 360) (_h6 : 0 ≤ alt2) :
    euclidean_km_from_latlonalt lat1 lon1 alt1 lat2 lon2 alt2
      = euclidean_km_from_latlonalt lat2 lon2 alt2 lat1 lon1 alt1 ∧
    euclidean_km_from_latlonalt lat1 lon1 alt1 lat1 lon1 alt1 = 0 := by
  constructor
  · unfold euclidean_km_from_latlonalt
    congr 1
    ring
  · unfold euclidean_km_from_latlonalt
    have hz : ((to_ecef lat1 lon1 alt1).1 - (to_ecef lat1 lon1 alt1).1) ^ 2
        + ((to_ecef lat1 lon1 alt1).2.1 - (to_ecef lat1 lon1 alt1).2.1) ^ 2
        + ((to_ecef lat1 lon1 alt1).2.2 - (to_ecef lat1 lon1 alt1).2.2) ^ 2
        = 0 := by ring
    rw [hz, Real.sqrt_zero]

/-- Concrete run of distance_symm_self_zero at two valid geodetic
points. -/
theorem distance_symm_self_zero_witness :
    euclidean_km_from_latlonalt 10 20 500 30 40 600
      = euclidean_km_from_latlonalt 30 40 600 10 20 500 ∧
    euclidean_km_from_latlonalt 10 20 500 10 20 500 = 0 :=
  distance_symm_self_zero 10 20 500 30 40 600 (by norm_num) (by norm_num)
    (by norm_num) (by norm_num) (by norm_num) (by norm_num)

theorem mem_scan_inner (a : Sat) (rest : List Sat) (t : ℝ) (p : Sat × Sat × ℝ) :
    p ∈ (rest.filterMap fun b =>
        if b.satlat.isSome ∧ b.satlng.isSome then
          if satDist a b ≤ t then some (a, b, satDist a b) else none
        else none) ↔
      ∃ j, ∃ (hj : j < rest.length),
        (rest.get ⟨j, hj⟩).satlat.isSome ∧ (rest.get ⟨j, hj⟩).satlng.isSome ∧
        satDist a (rest.get ⟨j, hj⟩) ≤ t ∧
        p = (a, rest.get ⟨j, hj⟩, satDist a (rest.get ⟨j, hj⟩)) := by
  rw [List.mem_filterMap]
  constructor
  · rintro ⟨b, hb, hf⟩
    rcases List.mem_iff_get.mp hb with ⟨⟨j, hj⟩, rfl⟩
    by_cases hco : ((rest.get ⟨j, hj⟩).satlat.isSome = true)
        ∧ ((rest.get ⟨j, hj⟩).satlng.isSome = true)
    · rw [if_pos hco] at hf
      by_cases hd : satDist a (rest.get ⟨j, hj⟩) ≤ t
      · rw [if_pos hd] at hf
        exact ⟨j, hj, hco.1, hco.2, hd, (Option.some.inj hf).symm⟩
      · rw [if_neg hd] at hf
        cases hf
    · rw [if_neg hco] at hf
      cases hf
  · rintro ⟨j, hj, h1, h2, h3, rfl⟩
    refine ⟨rest.get ⟨j, hj⟩, List.get_mem rest j hj, ?_⟩
    rw [if_pos ⟨h1, h2⟩, if_pos h3]

/-- C1: `find_close_pairs` returns exactly the unordered pairs `i < j`
in input order whose records both have latitude and longitude present
and whose computed distance is at most the threshold: every such pair is
emitted together with its distance, no pair with distance above the
threshold is emitted, and no emitted pair involves a record with an
absent coordinate. -/
theorem find_close_pairs_exact (l : List Sat) (t : ℝ) (p : Sat × Sat × ℝ) :
    p ∈ find_close_pairs l t ↔ specClosePair l t p := by
  induction l with
  | nil =>
    constructor
    · intro hmem
      cases hmem
    · rintro ⟨i, j, hi, _⟩
      cases hi
  | cons a rest ih =>
    rw [find_close_pairs, List.mem_append]
    constructor
    · rintro (hmem | hmem)
      · by_cases hA : (a.satlat.isSome = true) ∧ (a.satlng.isSome = true)
        · rw [if_pos hA] at hmem
          rcases (mem_scan_inner a rest t p).mp hmem with ⟨j, hj, h1, h2, h3, rfl⟩
          exact ⟨0, j + 1, Nat.succ_pos _, Nat.succ_lt_succ hj, Nat.succ_pos _,
            hA.1, hA.2, h1, h2, h3, rfl⟩
        · rw [if_neg hA] at hmem
          cases hmem
      · rcases ih.mp hmem with ⟨i, j, hi, hj, hij, h1, h2, h3, h4, h5, h6⟩
        exact ⟨i + 1, j + 1, Nat.succ_lt_succ hi, Nat.succ_lt_succ hj,
          Nat.succ_lt_succ hij, h1, h2, h3, h4, h5, h6⟩
    · rintro ⟨i, j, hi, hj, hij, h1, h2, h3, h4, h5, h6⟩
      cases i with
      | zero =>
        cases j with
        | zero => exact absurd hij (by omega)
        | succ j' =>
          left
          rw [if_pos ⟨h1, h2⟩]
          exact (mem_scan_inner a rest t p).mpr
            ⟨j', Nat.lt_of_succ_lt_succ hj, h3, h4, h5, h6⟩
      | succ i' =>
        cases j with
        | zero => exact absurd hij (by omega)
        | succ j' =>
          right
          exact ih.mpr ⟨i', j', Nat.lt_of_succ_lt_succ hi,
            Nat.lt_of_succ_lt_succ hj, Nat.lt_of_succ_lt_succ hij,
            h1, h2, h3, h4, h5, h6⟩

end SatDash
